import Mathlib

/-!
Shallow embedding of the bmsurge-renderer system: the Render Pipeline and
Render Service (worker/src/index.js) and the Job Dispatcher / import CLI
(the MongoDB-backed command file).  External processes, the filesystem and
the network are modelled by explicit environments recording the outcome of
each external step; wall-clock times are modelled by a logical clock (the
event sequence number), since no verified property depends on concrete
clock values.
-/

namespace Bmsurge

/-! ### Generic string helpers -/

/-- Test `initSeg big small`: true iff `small` is an initial segment of `big`. -/
def initSeg [BEq α] : List α → List α → Bool
  | _, [] => true
  | [], _ :: _ => false
  | a :: as, b :: bs => a == b && initSeg as bs

/-- Test `hasSub hay needle`: true iff `needle` occurs contiguously inside `hay`. -/
def hasSub [BEq α] : List α → List α → Bool
  | [], needle => needle.isEmpty
  | hay@(_ :: rest), needle => initSeg hay needle || hasSub rest needle

/-- Substring test on strings (models a JavaScript regex containment test). -/
def strContains (hay needle : String) : Bool :=
  hasSub hay.data needle.data

/-- Lower-casing of a string, character by character (models the `/i` regex
flag and case-insensitive glob matching). -/
def lowerStr (s : String) : String :=
  String.mk (s.data.map Char.toLower)

/-- JavaScript `s.startsWith(p)` (also the anchored regex `/^p/`). -/
def startsWithStr (s p : String) : Bool :=
  initSeg s.data p.data

/-- Test that `s` ends with `p` (an anchored suffix glob such as `*.wav`). -/
def endsWithStr (s p : String) : Bool :=
  initSeg s.data.reverse p.data.reverse

/-- JavaScript `String.prototype.trim`: strip whitespace from both ends. -/
def trimStr (s : String) : String :=
  String.mk (((s.data.dropWhile Char.isWhitespace).reverse.dropWhile
    Char.isWhitespace).reverse)

/-- JavaScript `String.prototype.split` with a one-character separator:
splitting the empty string yields one empty field, and separators delimit
(possibly empty) fields. -/
def splitCh (sep : Char) : List Char → List String
  | [] => [""]
  | c :: rest =>
    let tail := splitCh sep rest
    if c = sep then "" :: tail
    else
      match tail with
      | [] => [String.mk [c]]
      | t :: ts => String.mk (c :: t.data) :: ts

/-! ### Diagnostics model

`OutputDiagnostics` mirrors the diagnostics JSON shape of the worker:
`\x7boperationId, workingDirectory?, events: [\x7btime, event\x7d], outFile?, error?,
finishedAt\x7d`. -/

structure DiagEvent where
  time : Nat
  event : String
deriving Repr, DecidableEq

structure OutputDiagnostics where
  operationId : Option String := none
  workingDirectory : Option String := none
  events : List DiagEvent := []
  outFile : Option String := none
  error : Option String := none
  finishedAt : Option Nat := none
deriving Repr, DecidableEq

/-- JavaScript `eventLog(outputDiagnostics, event)` pushes
`\x7btime: Date.now(), event\x7d`; the wall clock is modelled by the event
sequence number. -/
def eventLog (d : OutputDiagnostics) (event : String) : OutputDiagnostics :=
  { d with events := d.events ++ [⟨d.events.length, event⟩] }

/-! ### External process outcomes -/

/-- Outcome of one `execa` invocation: non-zero exit, or timeout (every
pipeline invocation carries a fixed timeout). -/
inductive ExecErr where
  | nonZeroExit (code : Nat) (msg : String)
  | timeout (limitMs : Nat)
deriving Repr, DecidableEq

/-- The human-readable stack string `String(error && error.stack)` recorded
by the pipeline for a failed external process; for a timeout, `execa`
reports that the command timed out after the configured limit. -/
def ExecErr.describe : ExecErr → String
  | .nonZeroExit code msg =>
      "Error: Command failed with exit code " ++ toString code ++ ": " ++ msg
  | .timeout limitMs =>
      "Error: Command timed out after " ++ toString limitMs ++ " milliseconds"

/-! ### Prune stage (removal of unrelated files)

The worker deletes every extracted file whose path fails the test
`/\.(?:bms|bme|bml|pms|bmson|ogg|wav|mp3)/i` — note the regex is a
containment test, not anchored at the end of the name. -/

def allowedExts : List String :=
  ["bms", "bme", "bml", "pms", "bmson", "ogg", "wav", "mp3"]

/-- Test `keepFile filePath`, modelling
`/\.(?:bms|bme|bml|pms|bmson|ogg|wav|mp3)/i.test(filePath)`:
the lower-cased path contains a period immediately followed by one of the
allow-listed extensions, anywhere in the path. -/
def keepFile (filePath : String) : Bool :=
  allowedExts.any (fun ext => strContains (lowerStr filePath) ("." ++ ext))

/-- Files deleted by the prune loop. -/
def pruneRemoved (files : List String) : List String :=
  files.filter (fun f => !keepFile f)

/-- Files surviving the prune loop. -/
def pruneKept (files : List String) : List String :=
  files.filter keepFile

/-- Spec-side reading of the prune rule (for refinement comparison only):
a file is kept iff its extension — the text after the final period of its
name — is on the allow-list, case-insensitively. -/
def extSuffix (name : String) : String :=
  if name.data.contains '.' then
    String.mk (name.data.reverse.takeWhile (fun c => c ≠ '.')).reverse
  else ""

/-- Spec-side keep test: extension on the allow-list. -/
def specKeep (name : String) : Bool :=
  allowedExts.contains (lowerStr (extSuffix name))

/-! ### Chart selection -/

structure Chart where
  file : String
  noteCount : Nat
deriving Repr, DecidableEq

structure Song where
  id : String
  charts : List Chart
deriving Repr, DecidableEq

/-- The comparator `(a, b) => a.noteCount - b.noteCount`: ascending order
by note count. -/
def chartLE (a b : Chart) : Prop :=
  a.noteCount ≤ b.noteCount

instance : DecidableRel chartLE := fun a b => Nat.decLe a.noteCount b.noteCount

instance : IsTotal Chart chartLE := ⟨fun a b => Nat.le_total a.noteCount b.noteCount⟩

instance : IsTrans Chart chartLE := ⟨fun _ _ _ => Nat.le_trans⟩

/-- JavaScript `charts.sort((a, b) => a.noteCount - b.noteCount)`: a stable ascending
sort by note count (the ECMAScript sort is required to be stable, so any
stable sort — here insertion sort — produces the same list). -/
def sortCharts (charts : List Chart) : List Chart :=
  List.insertionSort chartLE charts

/-- JavaScript `charts[Math.floor((charts.length - 1) / 2)]` applied to the sorted
array (the JavaScript sort mutates in place, preserving length). -/
def selectChart (charts : List Chart) : Option Chart :=
  (sortCharts charts)[(charts.length - 1) / 2]?

/-! ### Sound Preparation (`prepareSounds`) -/

/-- Per-file outcome tag, mirroring the `resultLogText` values
`skip; blank file` / `ok` / `error`. -/
inductive FileResult where
  | skip
  | ok
  | error
deriving Repr, DecidableEq

/-- Environment for one Sound Preparation batch: the size reported by
`fs.statSync` and the outcome of the `sox` resample invocation for each
source file (ok with captured stderr, or a failure with optional stderr). -/
structure SoundEnv where
  size : String → Nat
  conv : String → Except (Option String) String

/-- JavaScript `path.basename(sound, path.extname(sound))`: the name with its final
extension removed (sound files reaching this point match `*.wav` / `*.mp3`
/ `*.ogg`, so the dot-file special case of `path.extname` cannot arise). -/
def stripExt (name : String) : String :=
  if name.data.contains '.' then
    String.mk ((name.data.reverse.dropWhile (fun c => c ≠ '.')).drop 1).reverse
  else name

/-- Destination file written by a successful conversion. -/
def soundDest (sound : String) : String :=
  stripExt sound ++ ".wav"

/-- Observable effects of one Sound Preparation batch: the per-file log
outcomes, the files for which the external converter was actually invoked,
the source files deleted, and the converted files produced. -/
structure PrepareOutcome where
  results : List (String × FileResult)
  invoked : List String
  removed : List String
  converted : List String
deriving Repr, DecidableEq

/-- Per-file outcome: a zero-byte source is skipped; otherwise the `sox`
invocation either succeeds or fails (the failure is caught and logged). -/
def prepareOne (env : SoundEnv) (sound : String) : FileResult :=
  if env.size sound = 0 then .skip
  else
    match env.conv sound with
    | .ok _ => .ok
    | .error _ => .error

/-- The whole batch.  The `finally` block deletes the source file in every
case, so `removed` collects every input; the function is total — the stage
as a whole never raises. -/
def prepareSounds (env : SoundEnv) : List String → PrepareOutcome
  | [] => ⟨[], [], [], []⟩
  | sound :: rest =>
    let res := prepareOne env sound
    let tail := prepareSounds env rest
    { results := (sound, res) :: tail.results
      invoked := (if env.size sound = 0 then [] else [sound]) ++ tail.invoked
      removed := sound :: tail.removed
      converted :=
        (match res with
         | .ok => [soundDest sound]
         | _ => []) ++ tail.converted }

/-! ### Render Pipeline -/

/-- The audio glob `*.\x7bwav,mp3,ogg\x7d` with the nocase flag. -/
def isSoundFile (f : String) : Bool :=
  ["wav", "mp3", "ogg"].any (fun e => endsWithStr (lowerStr f) ("." ++ e))

/-- The chart glob `*.\x7bbm[sel],pms,bmson\x7d` with the nocase flag. -/
def isChartFile (f : String) : Bool :=
  ["bms", "bme", "bml", "pms", "bmson"].any
    (fun e => endsWithStr (lowerStr f) ("." ++ e))

/-- The parsed `index.json` manifest. -/
structure IndexData where
  songs : List Song
deriving Repr, DecidableEq

/-- Environment of one pipeline invocation: the unique working directory and
the outcome of every external step (`none` for `indexData` models a thrown
`readFileSync` / `JSON.parse` failure). -/
structure RenderEnv where
  workDir : String
  wget : Except ExecErr Unit
  sevenZip : Except ExecErr Unit
  extractedFiles : List String
  sound : SoundEnv
  indexTool : Except ExecErr Unit
  indexData : Option IndexData
  bmsRenderer : Except ExecErr Unit
  wavegain : Except ExecErr Unit
  soxTrim : Except ExecErr Unit
  lame : Except ExecErr Unit
  mv : Except ExecErr Unit

/-- Message recorded when reading or parsing the manifest throws. -/
def indexReadError : String := "Error: ENOENT: no such file or directory"

/-- Run one external stage: on success append its event, on failure abort
with the diagnostics accumulated so far and the error description. -/
def stepExec (d : OutputDiagnostics) (outcome : Except ExecErr Unit)
    (tag : String) : Except (OutputDiagnostics × String) OutputDiagnostics :=
  match outcome with
  | .ok _ => .ok (eventLog d tag)
  | .error e => .error (d, ExecErr.describe e)

/-- The tail of the `try` block, from the `bms-renderer` invocation on: the
render, normalize, trim and encode stages, the setting of the output file
path, and the optional move to an explicitly requested destination. -/
def renderFinish (env : RenderEnv) (outputMp3Path : Option String)
    (d : OutputDiagnostics) : Except (OutputDiagnostics × String) OutputDiagnostics :=
  (stepExec d env.bmsRenderer "render:rendered").bind fun d =>
  (stepExec d env.wavegain "render:normalized").bind fun d =>
  (stepExec d env.soxTrim "render:trimmed").bind fun d =>
  (stepExec d env.lame "render:encoded").bind fun d =>
  let d := { d with outFile := some (env.workDir ++ "/song.mp3") }
  match outputMp3Path with
  | none => .ok d
  | some dest =>
    match env.mv with
    | .ok _ => .ok { d with outFile := some dest }
    | .error e => .error (d, ExecErr.describe e)

/-- The `try` block of `render`: the strictly ordered stage sequence.  A
failure carries the diagnostics accumulated so far (the JavaScript object is
mutated in place, so events recorded before the failure survive). -/
def renderBody (env : RenderEnv) (outputMp3Path : Option String)
    (d : OutputDiagnostics) : Except (OutputDiagnostics × String) OutputDiagnostics :=
  (stepExec d env.wget "render:downloaded").bind fun d =>
  (stepExec d env.sevenZip "render:extracted").bind fun d =>
  let remaining := pruneKept env.extractedFiles
  let d := eventLog d "render:unrelatedFilesRemoved"
  let sounds := remaining.filter isSoundFile
  let _prep := prepareSounds env.sound sounds
  let d := eventLog d "render:converted"
  let _chartFiles := remaining.filter isChartFile
  let d := eventLog d "render:chartsMoved"
  (stepExec d env.indexTool "render:indexed").bind fun d =>
  match env.indexData with
  | none => .error (d, indexReadError)
  | some data =>
    match data.songs.find? (fun s => s.id == "song") with
    | none => .error (d, "Error: No song found")
    | some song =>
      if song.charts.length = 0 then .error (d, "Error: No usable chart found")
      else
        let _selected := selectChart song.charts
        let d := eventLog d "render:chartSelected"
        renderFinish env outputMp3Path d

/-- Fresh diagnostics for one invocation. -/
def initDiag (operationId : Option String := none) : OutputDiagnostics :=
  { operationId := operationId, events := [] }

/-- The opening of `render`: record the `render:start` event and set the
working directory on the diagnostics. -/
def renderInit (env : RenderEnv) (d0 : OutputDiagnostics) : OutputDiagnostics :=
  { eventLog d0 "render:start" with workingDirectory := some env.workDir }

/-- The full `render` function: record `render:start`, set the working
directory, run the stage sequence, catch any failure into the `error`
field, and unconditionally record the finish timestamp. -/
def render (env : RenderEnv) (_url : String) (outputMp3Path : Option String)
    (d0 : OutputDiagnostics) : OutputDiagnostics :=
  let dEnd :=
    match renderBody env outputMp3Path (renderInit env d0) with
    | .ok d => d
    | .error (d, msg) => { d with error := some msg }
  { dEnd with finishedAt := some dEnd.events.length }

/-- The four event tags `renderFinish` can append, in stage order. -/
def finishTags : List String :=
  ["render:rendered", "render:normalized", "render:trimmed", "render:encoded"]

/-- The seven event tags appended before `renderFinish`, in stage order. -/
def frontTags : List String :=
  ["render:downloaded", "render:extracted", "render:unrelatedFilesRemoved",
   "render:converted", "render:chartsMoved", "render:indexed",
   "render:chartSelected"]

/-- The eleven event tags the `try` block can append, in stage order. -/
def bodyTags : List String :=
  frontTags ++ finishTags

/-- The twelve event tags of a fully successful run, in stage order. -/
def fullTags : List String :=
  "render:start" :: bodyTags

/-! ### Render Service (`PUT /renders/:operationId`) -/

/-- Server-side environment: the pipeline environment plus the outcome of
the object-storage upload of the produced file. -/
structure ServerEnv where
  renderEnv : RenderEnv
  upload : Except String Unit

/-- HTTP responses the handler can produce: the 400 rejection, the
diagnostics JSON body, or the express error path (`next(err)`). -/
inductive ServerResponse where
  | badRequest (msg : String)
  | jsonDiag (d : OutputDiagnostics)
  | serverError (err : String)
deriving Repr, DecidableEq

/-- The request handler: reject unless the URL passes `/^http/`, run the
pipeline synchronously, upload the produced file (if any) appending an
`uploaded` event, and return the diagnostics as the JSON body; a thrown
upload failure reaches `next(err)`. -/
def handleRender (env : ServerEnv) (operationId url : String) : ServerResponse :=
  if !(startsWithStr url "http") then .badRequest "URL must be valid"
  else
    let result := render env.renderEnv url none
      { operationId := some operationId, events := [] }
    match result.outFile with
    | some _ =>
      match env.upload with
      | .ok _ => .jsonDiag (eventLog result "uploaded")
      | .error e => .serverError e
    | none => .jsonDiag result

/-! ### Job Dispatcher (`work` command) -/

/-- The JSON document stored under `renderResult`: the diagnostics shape of the worker plus a possibly present `uploadedAt` key (the worker itself never
writes that key; `uploadedAt = none` models its absence from the
document). -/
structure StoredResult where
  uploadedAt : Option Nat := none
  operationId : Option String := none
  workingDirectory : Option String := none
  events : List DiagEvent := []
  outFile : Option String := none
  error : Option String := none
  finishedAt : Option Nat := none
deriving Repr, DecidableEq

/-- Serializing the diagnostics of the worker and parsing it back yields a stored
document with no `uploadedAt` key. -/
def OutputDiagnostics.toStored (d : OutputDiagnostics) : StoredResult :=
  { uploadedAt := none, operationId := d.operationId,
    workingDirectory := d.workingDirectory, events := d.events,
    outFile := d.outFile, error := d.error, finishedAt := d.finishedAt }

/-- One document of the `songs` collection. -/
structure JobRecord where
  id : Nat
  url : String
  eventId : String := ""
  addedAt : Nat := 0
  renderResult : Option StoredResult := none
  renderError : Option String := none
  renderedAt : Option Nat := none
deriving Repr, DecidableEq

/-- The query filter on the path `renderResult.uploadedAt` with
`$exists: false`: the record matches when
`renderResult` is absent, or present but lacking an `uploadedAt` key. -/
def eligible (r : JobRecord) : Bool :=
  match r.renderResult with
  | none => true
  | some res => res.uploadedAt.isNone

/-- The eligibility query of one dispatch cycle over the whole collection. -/
def dispatchQuery (store : List JobRecord) : List JobRecord :=
  store.filter eligible

/-- Spec-side eligibility (for refinement comparison only): a record is
eligible iff it has no render result at all. -/
def specEligible (r : JobRecord) : Bool :=
  r.renderResult.isNone

/-- The chain split-filter-pop of the dispatcher on a list of
lines: the last line that is non-blank after trimming (a trimmed-empty
line is falsy). -/
def lastNonBlank (lines : List String) : Option String :=
  (lines.filter (fun r => trimStr r != "")).getLast?

/-- The same applied to the raw response text. -/
def parseAuthoritative (body : String) : Option String :=
  lastNonBlank (splitCh '\n' body.data)

/-- Outcome of the dispatcher call through `axios.put`: a 2xx response with its
text body, or a failure (network error, timeout, or non-2xx status) with
the stack string of the error and the response body when one is present. -/
inductive HttpOutcome where
  | success (body : String)
  | failure (stack : String) (responseBody : Option String)
deriving Repr, DecidableEq

/-- Stack string of a thrown `JSON.parse` failure. -/
def jsonSyntaxError : String := "SyntaxError: Unexpected token in JSON"

/-- Dispatch attempt of one job, after the HTTP call resolved: on success
parse the last non-blank response line as JSON (`parse` models
`JSON.parse`; a parse failure is caught by the same `catch`) and `$set`
`renderResult` + `renderedAt`; on failure `$set` `renderError` (stack plus
any response body) + `renderedAt`. -/
def workJob (parse : String → Option StoredResult) :
    HttpOutcome → Nat → JobRecord → JobRecord
  | .success body, now, r =>
    (match (parseAuthoritative body).bind parse with
     | some result => { r with renderResult := some result, renderedAt := some now }
     | none => { r with renderError := some jsonSyntaxError, renderedAt := some now })
  | .failure stack responseBody, now, r =>
    { r with
      renderError := some (stack ++
        (match responseBody with
         | some b => "\nResponse: " ++ b
         | none => "")),
      renderedAt := some now }

/-- Digit-string evaluation (the numeric fragment of `JSON.parse`). -/
def digitsToNat (cs : List Char) : Option Nat :=
  if cs.isEmpty then none
  else if cs.all Char.isDigit then
    some (cs.foldl (fun n c => n * 10 + (c.toNat - 48)) 0)
  else none

/-- A fragment model of `JSON.parse` sufficient for the flat documents the
examples use: strings of the exact shape `\x7b"a":n\x7d` parse to `n`. -/
def parseObjA (s : String) : Option Nat :=
  if startsWithStr s "\x7b\"a\":" && endsWithStr s "\x7d" then
    digitsToNat (s.data.drop 5).dropLast
  else none

/-! ### Import (`import <file>` command) -/

/-- A document inserted by the import path. -/
structure SongDoc where
  url : String
  eventId : String
  addedAt : Nat
deriving Repr, DecidableEq

/-- Whether some document with the given URL is already in the store. -/
def memUrl (store : List SongDoc) (url : String) : Bool :=
  store.any (fun d => d.url == url)

/-- One `updateOne` of the bulk write: `filter \x7burl\x7d`,
`$setOnInsert \x7burl, eventId, addedAt\x7d`, `upsert: true` — when a document
with that URL exists the update modifies nothing, otherwise it inserts the
new document. -/
def upsertSong (store : List SongDoc) (url eventId : String) (now : Nat) :
    List SongDoc :=
  if memUrl store url then store
  else store ++ [⟨url, eventId, now⟩]

/-- The whole bulk write, in order. -/
def importUrls (store : List SongDoc) (urls : List String) (eventId : String)
    (now : Nat) : List SongDoc :=
  urls.foldl (fun s url => upsertSong s url eventId now) store

/-! ### Concrete environments and records used for evaluations -/

/-- A sound environment where every file is non-empty and converts. -/
def sndOk : SoundEnv :=
  { size := fun _ => 100, conv := fun _ => .ok "" }

/-- An environment where every external step succeeds. -/
def envAllOk : RenderEnv :=
  { workDir := "/tmp/bmsurge-renderer/abc123"
    wget := .ok ()
    sevenZip := .ok ()
    extractedFiles := ["a.bms", "b.txt", "kick.wav"]
    sound := sndOk
    indexTool := .ok ()
    indexData := some ⟨[⟨"song", [⟨"a.sjis.bms", 5⟩]⟩]⟩
    bmsRenderer := .ok ()
    wavegain := .ok ()
    soxTrim := .ok ()
    lame := .ok ()
    mv := .ok () }

/-- Indexing succeeds but the song entry has zero charts. -/
def envNoChart : RenderEnv :=
  { envAllOk with indexData := some ⟨[⟨"song", []⟩]⟩ }

/-- The final `mv` to an explicit destination fails. -/
def envMvFail : RenderEnv :=
  { envAllOk with mv := .error (.nonZeroExit 1 "mv") }

/-- The `bms-renderer` stage exceeds its 300 s bound. -/
def envRenderTimeout : RenderEnv :=
  { envAllOk with bmsRenderer := .error (.timeout 300000) }

/-- A diagnostics of a failed render attempt, as the worker reports it. -/
def diagFail : OutputDiagnostics :=
  { operationId := some "op1",
    events := [⟨0, "render:start"⟩],
    error := some "Error: Command failed with exit code 1: wget",
    finishedAt := some 1 }

/-- A fresh, never-attempted job record. -/
def job0 : JobRecord := { id := 0, url := "http://u" }

/-- The record after one dispatch attempt stored the (failed) worker
diagnostics as the render result. -/
def job1 : JobRecord :=
  workJob (fun _ => some diagFail.toStored) (.success "\x7b\x7d") 5 job0

/-- A stored result document carrying an internal error and no output. -/
def resFail : StoredResult :=
  { error := some "Error: boom", outFile := none, finishedAt := some 3 }

/-! ## Helper lemmas -/

theorem initSeg_refl [BEq α] [LawfulBEq α] (l : List α) : initSeg l l = true := by
  induction l with
  | nil => rfl
  | cons a t ih => simp [initSeg, ih]

theorem initSeg_extend [BEq α] (l n z : List α) (h : initSeg l n = true) :
    initSeg (l ++ z) n = true := by
  induction n generalizing l with
  | nil => simp [initSeg]
  | cons b bs ih =>
    cases l with
    | nil => simp [initSeg] at h
    | cons a as =>
      simp only [initSeg, Bool.and_eq_true] at h
      simp only [List.cons_append, initSeg, Bool.and_eq_true]
      exact ⟨h.1, ih as h.2⟩

theorem hasSub_append_self [BEq α] [LawfulBEq α] (xs ys : List α) :
    hasSub (xs ++ ys) ys = true := by
  induction xs with
  | nil =>
    cases ys with
    | nil => rfl
    | cons c t =>
      simp only [List.nil_append, hasSub, Bool.or_eq_true]
      exact Or.inl (initSeg_refl _)
  | cons x xs ih =>
    simp only [List.cons_append, hasSub, Bool.or_eq_true]
    exact Or.inr ih

theorem hasSub_extend [BEq α] (xs z n : List α) (h : hasSub xs n = true) :
    hasSub (xs ++ z) n = true := by
  induction xs with
  | nil =>
    cases n with
    | nil =>
      cases z with
      | nil => rfl
      | cons c t => simp [hasSub, initSeg]
    | cons b bs => simp [hasSub, List.isEmpty] at h
  | cons x xs ih =>
    simp only [hasSub, Bool.or_eq_true] at h
    simp only [List.cons_append, hasSub, Bool.or_eq_true]
    cases h with
    | inl h => exact Or.inl (initSeg_extend _ _ _ h)
    | inr h => exact Or.inr (ih h)

theorem strContains_append_right (a b : String) : strContains (a ++ b) b = true := by
  simp only [strContains, String.data_append]
  exact hasSub_append_self _ _

theorem strContains_append_left (a b n : String) (h : strContains a n = true) :
    strContains (a ++ b) n = true := by
  simp only [strContains, String.data_append]
  exact hasSub_extend _ _ _ h

theorem lowerStr_append (a b : String) : lowerStr (a ++ b) = lowerStr a ++ lowerStr b := by
  simp only [lowerStr, String.data_append, List.map_append]
  rfl

/-- A file name ending in an allow-listed extension passes the keep test. -/
theorem keepFile_of_allowed_ext (base ext : String) (h : lowerStr ext ∈ allowedExts) :
    keepFile (base ++ "." ++ ext) = true := by
  unfold keepFile
  rw [List.any_eq_true]
  refine ⟨lowerStr ext, h, ?_⟩
  have hdot : lowerStr "." = "." := by decide
  have : lowerStr (base ++ "." ++ ext) = lowerStr base ++ ("." ++ lowerStr ext) := by
    rw [lowerStr_append, lowerStr_append, hdot, String.append_assoc]
  rw [this]
  exact strContains_append_right _ _

/-- The last element of the non-blank filtering: it is a line of the input,
it is non-blank, and every later line is blank. -/
theorem lastNonBlank_spec (lines : List String) (l : String)
    (h : lastNonBlank lines = some l) :
    ∃ pre post, lines = pre ++ l :: post ∧ trimStr l ≠ ""
      ∧ ∀ x ∈ post, trimStr x = "" := by
  induction lines using List.reverseRecOn with
  | nil => simp [lastNonBlank] at h
  | append_singleton ys x ih =>
    by_cases hx : trimStr x = ""
    · have hrw : lastNonBlank (ys ++ [x]) = lastNonBlank ys := by
        simp [lastNonBlank, List.filter_append, hx]
      rw [hrw] at h
      obtain ⟨pre, post, hsplit, hl, hpost⟩ := ih h
      refine ⟨pre, post ++ [x], by simp [hsplit], hl, ?_⟩
      intro y hy
      rcases List.mem_append.mp hy with hy | hy
      · exact hpost y hy
      · rcases List.mem_singleton.mp hy with rfl
        exact hx
    · have hrw : lastNonBlank (ys ++ [x]) = some x := by
        simp [lastNonBlank, List.filter_append, hx, List.getLast?_concat]
      rw [hrw] at h
      cases h
      exact ⟨ys, [], by simp, hx, by simp⟩

/-! ## Claims -/

/-- C3: for every non-empty chart list, chart selection sorts ascending by
note count (a stable sort: the result is sorted and a permutation of the
input) and picks the chart at index `floor((N-1)/2)` of the sorted list;
some chart is always selected; and for note counts `[5, 2, 9, 2]` the
sorted list is `[2, 2, 5, 9]` and the selected chart is its index-1
element. -/
theorem c3_select_median (charts : List Chart) (h : charts ≠ []) :
    (sortCharts charts).Pairwise (fun a b => a.noteCount ≤ b.noteCount)
    ∧ (sortCharts charts).Perm charts
    ∧ selectChart charts = (sortCharts charts)[(charts.length - 1) / 2]?
    ∧ (∃ c, selectChart charts = some c)
    ∧ (sortCharts [⟨"x", 5⟩, ⟨"y", 2⟩, ⟨"z", 9⟩, ⟨"w", 2⟩]).map Chart.noteCount
        = [2, 2, 5, 9]
    ∧ selectChart [⟨"x", 5⟩, ⟨"y", 2⟩, ⟨"z", 9⟩, ⟨"w", 2⟩]
        = (sortCharts [⟨"x", 5⟩, ⟨"y", 2⟩, ⟨"z", 9⟩, ⟨"w", 2⟩])[1]? := by
  refine ⟨List.sorted_insertionSort chartLE charts,
    List.perm_insertionSort chartLE charts, rfl, ?_, by decide, by decide⟩
  have hlen : (charts.length - 1) / 2 < (sortCharts charts).length := by
    have h0 : charts.length ≠ 0 := fun hc => h (List.length_eq_zero.mp hc)
    have h1 : (charts.length - 1) / 2 ≤ charts.length - 1 := Nat.div_le_self _ _
    simp only [sortCharts, List.length_insertionSort]
    omega
  exact ⟨_, List.getElem?_eq_getElem hlen⟩

/-- C3 witness: the theorem applied to the concrete four-chart list. -/
theorem c3_witness :
    ∃ c, selectChart [⟨"x", 5⟩, ⟨"y", 2⟩, ⟨"z", 9⟩, ⟨"w", 2⟩] = some c :=
  (c3_select_median [⟨"x", 5⟩, ⟨"y", 2⟩, ⟨"z", 9⟩, ⟨"w", 2⟩] (by decide)).2.2.2.1

/-- C4: the authoritative result line of the dispatcher is exactly the last line
that is non-blank after trimming — all earlier lines and all blank lines
are discarded — and for the body `\x7b"a":1\x7d\n\n\x7b"a":2\x7d` the selected line is
`\x7b"a":2\x7d`, which parses to the document with `a = 2`. -/
theorem c4_last_nonblank_authoritative :
    (∀ (body l : String), parseAuthoritative body = some l →
      ∃ pre post, splitCh '\n' body.data = pre ++ l :: post
        ∧ trimStr l ≠ "" ∧ ∀ x ∈ post, trimStr x = "")
    ∧ parseAuthoritative "\x7b\"a\":1\x7d\n\n\x7b\"a\":2\x7d" = some "\x7b\"a\":2\x7d"
    ∧ parseObjA "\x7b\"a\":2\x7d" = some 2 := by
  refine ⟨?_, by decide, by decide⟩
  intro body l h
  exact lastNonBlank_spec _ _ h

/-- C4 witness: the characterization applied to the concrete streamed
body. -/
theorem c4_witness :
    ∃ pre post,
      splitCh '\n' "\x7b\"a\":1\x7d\n\n\x7b\"a\":2\x7d".data = pre ++ "\x7b\"a\":2\x7d" :: post
      ∧ trimStr "\x7b\"a\":2\x7d" ≠ "" ∧ ∀ x ∈ post, trimStr x = "" :=
  c4_last_nonblank_authoritative.1 "\x7b\"a\":1\x7d\n\n\x7b\"a\":2\x7d" "\x7b\"a\":2\x7d" (by decide)

/-- C5 counterexample: the prune test is an unanchored containment test, so
`a.bms.txt` — whose extension `txt` is not on the allow-list — is kept, and
the claim "deletes exactly those files whose extension is not on the
allow-list" fails at the file list `[a.bms.txt]`. -/
theorem c5_counterexample :
    ¬ (pruneRemoved ["a.bms.txt"]
        = (["a.bms.txt"].filter (fun f => !(specKeep f)))) := by
  decide

/-- C5 (amended): the prune stage deletes exactly the files whose
lower-cased path does not contain a period immediately followed by an
allow-listed extension; in particular every file whose name ends in an
allow-listed extension is kept, `[a.bms, b.txt, c.wav]` loses only
`b.txt`, but a file such as `a.bms.txt` (extension `txt`, off the
allow-list) is also kept. -/
theorem c5_prune_amended :
    (∀ (base ext : String), lowerStr ext ∈ allowedExts →
      keepFile (base ++ "." ++ ext) = true)
    ∧ (∀ files : List String,
        pruneRemoved files = files.filter (fun f => !(keepFile f)))
    ∧ pruneRemoved ["a.bms", "b.txt", "c.wav"] = ["b.txt"]
    ∧ keepFile "a.bms.txt" = true
    ∧ specKeep "a.bms.txt" = false := by
  exact ⟨keepFile_of_allowed_ext, fun _ => rfl, by decide, by decide, by decide⟩

/-- C5 witness: a file with an upper-case allow-listed extension is kept. -/
theorem c5_witness : keepFile ("c" ++ "." ++ "WAV") = true :=
  c5_prune_amended.1 "c" "WAV" (by decide)

/-! ## Sound Preparation lemmas and C7 -/

theorem prepareSounds_removed (env : SoundEnv) (sounds : List String) :
    (prepareSounds env sounds).removed = sounds := by
  induction sounds with
  | nil => rfl
  | cons s rest ih =>
    show s :: (prepareSounds env rest).removed = s :: rest
    rw [ih]

theorem prepareSounds_results (env : SoundEnv) (sounds : List String) :
    (prepareSounds env sounds).results
      = sounds.map (fun s => (s, prepareOne env s)) := by
  induction sounds with
  | nil => rfl
  | cons s rest ih =>
    show (s, prepareOne env s) :: (prepareSounds env rest).results
        = (s :: rest).map (fun s => (s, prepareOne env s))
    rw [List.map_cons, ih]

theorem prepareSounds_invoked (env : SoundEnv) (sounds : List String) :
    (prepareSounds env sounds).invoked
      = sounds.filter (fun s => !(env.size s == 0)) := by
  induction sounds with
  | nil => rfl
  | cons s rest ih =>
    show (if env.size s = 0 then [] else [s]) ++ (prepareSounds env rest).invoked
        = (s :: rest).filter (fun s => !(env.size s == 0))
    rw [ih, List.filter_cons]
    by_cases h : env.size s = 0
    · simp [h]
    · simp [h]

/-- C7: in every Sound Preparation batch, every source file is deleted in
every case (success, skip, or failure), every file receives an outcome (so
one conversion failure never aborts the rest, and the stage — a total
function — never raises), a zero-byte source is logged as skipped and the
external converter is never invoked on it, and the converter is invoked
only on non-empty files. -/
theorem c7_prepare_sounds_total (env : SoundEnv) (sounds : List String) :
    (prepareSounds env sounds).removed = sounds
    ∧ (prepareSounds env sounds).results.map Prod.fst = sounds
    ∧ (∀ s, s ∈ sounds → env.size s = 0 →
        ((s, FileResult.skip) ∈ (prepareSounds env sounds).results
          ∧ s ∉ (prepareSounds env sounds).invoked))
    ∧ (∀ s, s ∈ (prepareSounds env sounds).invoked → env.size s ≠ 0) := by
  refine ⟨prepareSounds_removed env sounds, ?_, ?_, ?_⟩
  · have hcomp : (Prod.fst ∘ fun s => (s, prepareOne env s)) = id := rfl
    rw [prepareSounds_results, List.map_map, hcomp, List.map_id]
  · intro s hs hsize
    constructor
    · rw [prepareSounds_results]
      exact List.mem_map.mpr ⟨s, hs, by simp [prepareOne, hsize]⟩
    · rw [prepareSounds_invoked]
      intro hmem
      have h2 := (List.mem_filter.mp hmem).2
      simp [hsize] at h2
  · intro s hmem heq
    rw [prepareSounds_invoked] at hmem
    have h2 := (List.mem_filter.mp hmem).2
    simp [heq] at h2

/-- C7 witness: a batch with a zero-byte file and a failing conversion. -/
theorem c7_witness :
    (prepareSounds
      { size := fun s => if s = "blank.wav" then 0 else 10,
        conv := fun s => if s = "bad.ogg" then .error (some "sox: fail") else .ok "" }
      ["blank.wav", "bad.ogg", "good.mp3"]).removed
        = ["blank.wav", "bad.ogg", "good.mp3"]
    ∧ ("blank.wav", FileResult.skip) ∈
        (prepareSounds
          { size := fun s => if s = "blank.wav" then 0 else 10,
            conv := fun s => if s = "bad.ogg" then .error (some "sox: fail") else .ok "" }
          ["blank.wav", "bad.ogg", "good.mp3"]).results
    ∧ "blank.wav" ∉
        (prepareSounds
          { size := fun s => if s = "blank.wav" then 0 else 10,
            conv := fun s => if s = "bad.ogg" then .error (some "sox: fail") else .ok "" }
          ["blank.wav", "bad.ogg", "good.mp3"]).invoked := by
  have h := c7_prepare_sounds_total
    { size := fun s => if s = "blank.wav" then 0 else 10,
      conv := fun s => if s = "bad.ogg" then .error (some "sox: fail") else .ok "" }
    ["blank.wav", "bad.ogg", "good.mp3"]
  have hz := h.2.2.1 "blank.wav" (by decide) (by decide)
  exact ⟨h.1, hz.1, hz.2⟩

/-! ## Import lemmas and C9 -/

theorem memUrl_upsert_self (store : List SongDoc) (url e : String) (t : Nat) :
    memUrl (upsertSong store url e t) url = true := by
  unfold upsertSong
  by_cases h : memUrl store url
  · simp [h]
  · simp only [h, Bool.false_eq_true, if_false]
    simp [memUrl, List.any_append]

theorem memUrl_upsert_mono (store : List SongDoc) (u v e : String) (t : Nat)
    (h : memUrl store u = true) :
    memUrl (upsertSong store v e t) u = true := by
  unfold upsertSong
  split
  · exact h
  · simp only [memUrl, List.any_append, Bool.or_eq_true]
    exact Or.inl h

theorem memUrl_import_mono (store : List SongDoc) (urls : List String)
    (e : String) (t : Nat) (u : String) (h : memUrl store u = true) :
    memUrl (importUrls store urls e t) u = true := by
  induction urls generalizing store with
  | nil => exact h
  | cons v vs ih => exact ih _ (memUrl_upsert_mono store u v e t h)

theorem memUrl_import_mem (store : List SongDoc) (urls : List String)
    (e : String) (t : Nat) (u : String) (h : u ∈ urls) :
    memUrl (importUrls store urls e t) u = true := by
  induction urls generalizing store with
  | nil => cases h
  | cons v vs ih =>
    rcases List.mem_cons.mp h with rfl | hmem
    · exact memUrl_import_mono _ vs e t u (memUrl_upsert_self store u e t)
    · exact ih _ hmem

theorem import_noop (store : List SongDoc) (urls : List String) (e : String)
    (t : Nat) (h : ∀ u ∈ urls, memUrl store u = true) :
    importUrls store urls e t = store := by
  induction urls with
  | nil => rfl
  | cons v vs ih =>
    have hv : upsertSong store v e t = store := by
      unfold upsertSong
      rw [if_pos (h v (List.mem_cons_self v vs))]
    have hstep : importUrls store (v :: vs) e t
        = importUrls (upsertSong store v e t) vs e t := rfl
    rw [hstep, hv]
    exact ih (fun u hu => h u (List.mem_cons_of_mem v hu))

/-- C9: the import path is idempotent with respect to the job store — a URL
already present is left untouched (its fields are only set on insert), so
importing the same URL list twice (even with a different batch identifier
and insertion time the second run) yields the same store as importing it
once. -/
theorem c9_import_idempotent :
    (∀ (store : List SongDoc) (urls : List String) (e : String) (t : Nat)
        (e' : String) (t' : Nat),
      importUrls (importUrls store urls e t) urls e' t' = importUrls store urls e t)
    ∧ (∀ (store : List SongDoc) (url e : String) (t : Nat),
        memUrl store url = true → upsertSong store url e t = store) := by
  constructor
  · intro store urls e t e' t'
    exact import_noop _ urls e' t' (fun u hu => memUrl_import_mem store urls e t u hu)
  · intro store url e t h
    unfold upsertSong
    rw [if_pos h]

/-- C9 witness: re-upserting an already present URL leaves the store as it
was, with the original batch identifier and insertion time. -/
theorem c9_witness :
    upsertSong [⟨"http://u", "ev1", 3⟩] "http://u" "ev2" 9
      = [⟨"http://u", "ev1", 3⟩] :=
  c9_import_idempotent.2 [⟨"http://u", "ev1", 3⟩] "http://u" "ev2" 9 (by decide)

/-! ## C1: dispatch eligibility -/

/-- C1 counterexample: `job1` has been attempted — it carries a stored
render result and a render timestamp — yet the eligibility query of a
subsequent dispatch cycle still selects it, because the query tests
`renderResult.uploadedAt` (a key the worker diagnostics never contains),
not the presence of `renderResult`. -/
theorem c1_counterexample :
    job1.renderResult.isSome = true ∧ job1.renderedAt = some 5
    ∧ dispatchQuery [job1] = [job1] := by
  decide

/-- C1 (amended): a record is eligible for dispatch iff its render result
(if any) has no `uploadedAt` key; documents stored from the worker
diagnostics never carry that key; hence a record that has been attempted —
receiving either an error, or any result lacking `uploadedAt` — remains
eligible and IS selected again by the query of a subsequent dispatch cycle. -/
theorem c1_eligibility_amended :
    (∀ r : JobRecord, eligible r = true ↔
      ∀ res, r.renderResult = some res → res.uploadedAt = none)
    ∧ (∀ d : OutputDiagnostics, (OutputDiagnostics.toStored d).uploadedAt = none)
    ∧ (∀ (parse : String → Option StoredResult) (outcome : HttpOutcome)
        (now : Nat) (r : JobRecord),
        eligible r = true →
        (∀ body res, outcome = HttpOutcome.success body →
          (parseAuthoritative body).bind parse = some res → res.uploadedAt = none) →
        eligible (workJob parse outcome now r) = true) := by
  refine ⟨?_, fun _ => rfl, ?_⟩
  · intro r
    constructor
    · intro h res' hres'
      unfold eligible at h
      rw [hres'] at h
      exact Option.isNone_iff_eq_none.mp h
    · intro h
      unfold eligible
      cases hr : r.renderResult with
      | none => rfl
      | some res =>
        show res.uploadedAt.isNone = true
        rw [h res hr]
        rfl
  · intro parse outcome now r hr hres
    cases outcome with
    | success body =>
      cases hp : (parseAuthoritative body).bind parse with
      | none =>
        simp only [workJob]
        rw [hp]
        exact hr
      | some res =>
        have hup := hres body res rfl hp
        simp only [workJob]
        rw [hp]
        show res.uploadedAt.isNone = true
        rw [hup]
        rfl
    | failure stack resp =>
      exact hr

/-- C1 witness: the amended eligibility preservation applied to a concrete
attempt that stored the failed worker diagnostics. -/
theorem c1_witness :
    eligible (workJob (fun _ => some (OutputDiagnostics.toStored diagFail))
      (HttpOutcome.success "\x7b\x7d") 5 job0) = true := by
  apply c1_eligibility_amended.2.2
  · rfl
  · intro body res hb hp
    injection hb with hb'
    subst hb'
    have hval : (parseAuthoritative "\x7b\x7d").bind
        (fun _ => some (OutputDiagnostics.toStored diagFail))
        = some (OutputDiagnostics.toStored diagFail) := by decide
    rw [hval] at hp
    injection hp with hp'
    subst hp'
    rfl

/-! ## Render pipeline case analysis -/

theorem eventLog_events_map (d : OutputDiagnostics) (t : String) :
    (eventLog d t).events.map (fun e => e.event)
      = d.events.map (fun e => e.event) ++ [t] := by
  simp [eventLog]

theorem initSeg_append_both [BEq α] [LawfulBEq α] (xs l t : List α)
    (h : initSeg l t = true) : initSeg (xs ++ l) (xs ++ t) = true := by
  induction xs with
  | nil => exact h
  | cons x xt ih => simp [initSeg, ih]

/-- Case analysis of the pipeline tail: it either completes with the output
file set and all four remaining stage events appended, or aborts with
events for an initial segment of the remaining stages, the `error` field
untouched, and — unless an explicit destination was requested — the output
file untouched as well. -/
theorem renderFinish_cases (env : RenderEnv) (out : Option String)
    (d : OutputDiagnostics) :
    (∃ d', renderFinish env out d = .ok d'
        ∧ d'.outFile.isSome = true
        ∧ d'.error = d.error
        ∧ d'.events.map (fun e => e.event)
            = d.events.map (fun e => e.event) ++ finishTags)
    ∨ (∃ d' msg tags, renderFinish env out d = .error (d', msg)
        ∧ d'.error = d.error
        ∧ (out = none → d'.outFile = d.outFile)
        ∧ initSeg finishTags tags = true
        ∧ d'.events.map (fun e => e.event)
            = d.events.map (fun e => e.event) ++ tags) := by
  unfold renderFinish
  cases hbr : env.bmsRenderer with
  | error e =>
    exact Or.inr ⟨d, ExecErr.describe e, [], rfl, rfl, fun _ => rfl, rfl, by simp⟩
  | ok _ =>
  simp only [stepExec, Except.bind]
  cases hwg : env.wavegain with
  | error e =>
    exact Or.inr ⟨_, _, ["render:rendered"], rfl, rfl, fun _ => rfl, by decide,
      by simp [eventLog_events_map]⟩
  | ok _ =>
  simp only [stepExec, Except.bind]
  cases hsx : env.soxTrim with
  | error e =>
    exact Or.inr ⟨_, _, ["render:rendered", "render:normalized"], rfl, rfl,
      fun _ => rfl, by decide, by simp [eventLog_events_map]⟩
  | ok _ =>
  simp only [stepExec, Except.bind]
  cases hlm : env.lame with
  | error e =>
    exact Or.inr ⟨_, _, ["render:rendered", "render:normalized", "render:trimmed"],
      rfl, rfl, fun _ => rfl, by decide, by simp [eventLog_events_map]⟩
  | ok _ =>
  simp only [stepExec, Except.bind]
  cases hout : out with
  | none =>
    exact Or.inl ⟨_, rfl, rfl, rfl, by simp [eventLog_events_map, finishTags]⟩
  | some dest =>
    cases hmv : env.mv with
    | ok _ =>
      exact Or.inl ⟨_, rfl, rfl, rfl, by simp [eventLog_events_map, finishTags]⟩
    | error e =>
      exact Or.inr ⟨_, _, finishTags, rfl, rfl, fun h => Option.noConfusion h,
        initSeg_refl _, by simp [eventLog_events_map, finishTags]⟩

/-- Every run of the `try` block either completes with the output file set
and all eleven stage events appended, or aborts with events for an initial
segment of the stages, the `error` field untouched (the catch writes it),
and — unless an explicit destination was requested — the output file
untouched as well. -/
theorem renderBody_cases (env : RenderEnv) (out : Option String)
    (d : OutputDiagnostics) :
    (∃ d', renderBody env out d = .ok d'
        ∧ d'.outFile.isSome = true
        ∧ d'.error = d.error
        ∧ d'.events.map (fun e => e.event)
            = d.events.map (fun e => e.event) ++ bodyTags)
    ∨ (∃ d' msg tags, renderBody env out d = .error (d', msg)
        ∧ d'.error = d.error
        ∧ (out = none → d'.outFile = d.outFile)
        ∧ initSeg bodyTags tags = true
        ∧ d'.events.map (fun e => e.event)
            = d.events.map (fun e => e.event) ++ tags) := by
  unfold renderBody
  cases hw : env.wget with
  | error e =>
    exact Or.inr ⟨d, ExecErr.describe e, [], rfl, rfl, fun _ => rfl, rfl, by simp⟩
  | ok _ =>
  simp only [stepExec, Except.bind]
  cases h7 : env.sevenZip with
  | error e =>
    exact Or.inr ⟨_, _, ["render:downloaded"], rfl, rfl, fun _ => rfl, by decide,
      by simp [eventLog_events_map]⟩
  | ok _ =>
  simp only [stepExec, Except.bind]
  cases hit : env.indexTool with
  | error e =>
    exact Or.inr ⟨_, _, ["render:downloaded", "render:extracted",
      "render:unrelatedFilesRemoved", "render:converted", "render:chartsMoved"],
      rfl, rfl, fun _ => rfl, by decide, by simp [eventLog_events_map]⟩
  | ok _ =>
  simp only [stepExec, Except.bind]
  cases hidx : env.indexData with
  | none =>
    exact Or.inr ⟨_, _, ["render:downloaded", "render:extracted",
      "render:unrelatedFilesRemoved", "render:converted", "render:chartsMoved",
      "render:indexed"],
      rfl, rfl, fun _ => rfl, by decide, by simp [eventLog_events_map]⟩
  | some data =>
  simp only []
  cases hfind : data.songs.find? (fun s => s.id == "song") with
  | none =>
    exact Or.inr ⟨_, _, ["render:downloaded", "render:extracted",
      "render:unrelatedFilesRemoved", "render:converted", "render:chartsMoved",
      "render:indexed"],
      rfl, rfl, fun _ => rfl, by decide, by simp [eventLog_events_map]⟩
  | some song =>
  simp only []
  by_cases hch : song.charts.length = 0
  · rw [if_pos hch]
    exact Or.inr ⟨_, _, ["render:downloaded", "render:extracted",
      "render:unrelatedFilesRemoved", "render:converted", "render:chartsMoved",
      "render:indexed"],
      rfl, rfl, fun _ => rfl, by decide, by simp [eventLog_events_map]⟩
  · rw [if_neg hch]
    rcases renderFinish_cases env out
        (eventLog (eventLog (eventLog (eventLog (eventLog (eventLog (eventLog d
          "render:downloaded") "render:extracted")
          "render:unrelatedFilesRemoved") "render:converted")
          "render:chartsMoved") "render:indexed") "render:chartSelected")
      with ⟨d', hok, hfile, herr, hev⟩ | ⟨d', msg, tags, herror, herr, hfile, hseg, hev⟩
    · refine Or.inl ⟨d', hok, hfile, herr, ?_⟩
      rw [hev]
      simp [eventLog_events_map, bodyTags, frontTags]
    · refine Or.inr ⟨d', msg, frontTags ++ tags, herror, herr, hfile, ?_, ?_⟩
      · exact initSeg_append_both frontTags finishTags tags hseg
      · rw [hev]
        simp [eventLog_events_map, frontTags]

/-! ## C2: diagnostics completion invariant -/

/-- C2 counterexample: with every stage succeeding but the final `mv` to the
explicitly requested destination failing, the completed diagnostics has
BOTH an output file path and an error description set, refuting "exactly
one of \x7boutput file path, error description\x7d is set (or neither when no
usable chart was produced)". -/
theorem c2_counterexample :
    ¬ (((render envMvFail "http://x" (some "/out/final.mp3") initDiag).outFile.isSome
          ≠ (render envMvFail "http://x" (some "/out/final.mp3") initDiag).error.isSome)
        ∨ ((render envMvFail "http://x" (some "/out/final.mp3") initDiag).outFile = none
            ∧ (render envMvFail "http://x" (some "/out/final.mp3") initDiag).error = none)) := by
  decide

/-- C2 (amended): after every pipeline invocation the finish timestamp is
set and at least one of \x7boutput file path, error description\x7d is set —
"neither" is impossible (a no-usable-chart run sets the error
description, not neither); when no explicit destination path was
requested, exactly one of the two is set; when an explicit destination
was requested both can be set, since the output path is assigned before
the final move. -/
theorem c2_diagnostics_amended :
    (∀ (env : RenderEnv) (url : String) (out : Option String),
      (render env url out initDiag).finishedAt.isSome = true
      ∧ ((render env url out initDiag).outFile.isSome
          || (render env url out initDiag).error.isSome) = true
      ∧ (out = none →
          (render env url out initDiag).outFile.isSome
            = !(render env url out initDiag).error.isSome))
    ∧ (∃ (env : RenderEnv) (url dest : String),
        (render env url (some dest) initDiag).outFile.isSome = true
        ∧ (render env url (some dest) initDiag).error.isSome = true) := by
  constructor
  · intro env url out
    unfold render
    rcases renderBody_cases env out (renderInit env initDiag)
      with ⟨d', hok, hfile, herr, _⟩ | ⟨d', msg, tags, herror, herr, hfile, _, _⟩
    · rw [hok]
      have h0 : d'.error = none := herr
      refine ⟨rfl, ?_, ?_⟩
      · show (d'.outFile.isSome || d'.error.isSome) = true
        simp [hfile]
      · intro _
        show d'.outFile.isSome = !d'.error.isSome
        simp [hfile, h0]
    · rw [herror]
      refine ⟨rfl, ?_, ?_⟩
      · show (d'.outFile.isSome || (some msg).isSome) = true
        simp
      · intro h
        have h0 : d'.outFile = none := hfile h
        show d'.outFile.isSome = !(some msg).isSome
        simp [h0]
  · exact ⟨envMvFail, "http://x", "/out/final.mp3", by decide, by decide⟩

/-- C2 witness: the amended invariant applied to the all-success
environment with no explicit destination. -/
theorem c2_witness :
    (render envAllOk "http://x" none initDiag).outFile.isSome
      = !(render envAllOk "http://x" none initDiag).error.isSome :=
  (c2_diagnostics_amended.1 envAllOk "http://x" none).2.2 rfl

/-! ## C6: failure short-circuits later stages -/

/-- C6: the recorded events are always an initial segment of the stage tag
sequence — once a stage fails, no event of any later stage is ever
recorded — and a timeout of the Render stage (`bms-renderer`) leaves the
error description equal to the timeout failure text (which contains
"timed out") with no `render:normalized` event recorded. -/
theorem c6_failure_short_circuit :
    (∀ (env : RenderEnv) (url : String) (out : Option String),
      initSeg fullTags
        ((render env url out initDiag).events.map (fun e => e.event)) = true)
    ∧ (∀ (env : RenderEnv) (url : String) (out : Option String) (t : Nat)
        (data : IndexData) (song : Song),
        env.wget = Except.ok () → env.sevenZip = Except.ok () →
        env.indexTool = Except.ok () → env.indexData = some data →
        data.songs.find? (fun s => s.id == "song") = some song →
        song.charts.length ≠ 0 →
        env.bmsRenderer = Except.error (ExecErr.timeout t) →
        ((render env url out initDiag).error
            = some (ExecErr.describe (ExecErr.timeout t))
          ∧ strContains (ExecErr.describe (ExecErr.timeout t)) "timed out" = true
          ∧ "render:normalized" ∉
              (render env url out initDiag).events.map (fun e => e.event))) := by
  constructor
  · intro env url out
    unfold render
    rcases renderBody_cases env out (renderInit env initDiag)
      with ⟨d', hok, _, _, hev⟩ | ⟨d', msg, tags, herror, _, _, hseg, hev⟩
    · rw [hok]
      show initSeg fullTags (d'.events.map (fun e => e.event)) = true
      rw [hev]
      exact initSeg_refl fullTags
    · rw [herror]
      show initSeg fullTags (d'.events.map (fun e => e.event)) = true
      rw [hev]
      show initSeg ("render:start" :: bodyTags) ("render:start" :: tags) = true
      simp [initSeg, hseg]
  · intro env url out t data song hw h7 hit hidx hfind hch hbr
    unfold render renderBody renderFinish
    rw [hw, h7, hit, hidx, hbr]
    simp only [stepExec, Except.bind]
    rw [hfind]
    simp only []
    rw [if_neg hch]
    refine ⟨rfl, ?_, ?_⟩
    · have h1 : strContains "Error: Command timed out after " "timed out" = true := by
        decide
      have h2 := strContains_append_left "Error: Command timed out after "
        (toString t) "timed out" h1
      exact strContains_append_left _ " milliseconds" "timed out" h2
    · simp [eventLog, renderInit, initDiag]

/-- C6 witness: the timeout property applied to the concrete environment
whose `bms-renderer` invocation times out after 300 s. -/
theorem c6_witness :
    (render envRenderTimeout "http://x" none initDiag).error
        = some (ExecErr.describe (ExecErr.timeout 300000))
      ∧ strContains (ExecErr.describe (ExecErr.timeout 300000)) "timed out" = true
      ∧ "render:normalized" ∉
          (render envRenderTimeout "http://x" none initDiag).events.map
            (fun e => e.event) :=
  c6_failure_short_circuit.2 envRenderTimeout "http://x" none 300000
    ⟨[⟨"song", [⟨"a.sjis.bms", 5⟩]⟩]⟩ ⟨"song", [⟨"a.sjis.bms", 5⟩]⟩
    rfl rfl rfl rfl (by decide) (by decide) rfl

/-! ## C8: Render Service request handling -/

/-- C8 counterexample: a well-formed URL is accepted and the render
succeeds, but the object-storage upload of the produced file fails, so the
handler answers with a server error via `next(err)` instead of returning
the diagnostics body — refuting "for every accepted request the full
diagnostics object is returned as the response body". -/
theorem c8_counterexample :
    startsWithStr "http://u" "http" = true
    ∧ handleRender ⟨envAllOk, .error "upload failed"⟩ "op" "http://u"
        = ServerResponse.serverError "upload failed" := by
  constructor
  · decide
  · decide

/-- C8 (amended): a request is rejected with the client-error response iff
the URL does not begin with `http`; every accepted request returns the
full diagnostics object as the body — including when the render failed
internally, the error travelling inside the diagnostics — except that when
a produced output file's upload to object storage fails, the request fails
with a server error instead. -/
theorem c8_service_amended :
    (∀ (env : ServerEnv) (op url : String),
      (∃ m, handleRender env op url = ServerResponse.badRequest m)
        ↔ startsWithStr url "http" = false)
    ∧ (∀ (env : ServerEnv) (op url : String),
        startsWithStr url "http" = true →
        ((render env.renderEnv url none
            { operationId := some op, events := [] }).outFile = none
          ∨ env.upload = Except.ok ()) →
        ∃ dgs, handleRender env op url = ServerResponse.jsonDiag dgs
          ∧ dgs.error = (render env.renderEnv url none
              { operationId := some op, events := [] }).error
          ∧ dgs.outFile = (render env.renderEnv url none
              { operationId := some op, events := [] }).outFile)
    ∧ (∀ (env : ServerEnv) (op url : String) (e : String),
        startsWithStr url "http" = true →
        (render env.renderEnv url none
          { operationId := some op, events := [] }).outFile.isSome = true →
        env.upload = Except.error e →
        handleRender env op url = ServerResponse.serverError e) := by
  refine ⟨?_, ?_, ?_⟩
  · intro env op url
    constructor
    · rintro ⟨m, hm⟩
      cases hs : startsWithStr url "http" with
      | false => rfl
      | true =>
        exfalso
        unfold handleRender at hm
        rw [hs] at hm
        simp only [Bool.not_true, Bool.false_eq_true, if_false] at hm
        cases ho : (render env.renderEnv url none
            { operationId := some op, events := [] }).outFile with
        | none =>
          rw [ho] at hm
          exact ServerResponse.noConfusion hm
        | some f =>
          rw [ho] at hm
          cases hu : env.upload with
          | ok u =>
            rw [hu] at hm
            exact ServerResponse.noConfusion hm
          | error e =>
            rw [hu] at hm
            exact ServerResponse.noConfusion hm
    · intro hs
      unfold handleRender
      rw [hs]
      exact ⟨"URL must be valid", rfl⟩
  · intro env op url hs hd
    unfold handleRender
    rw [hs]
    simp only [Bool.not_true, Bool.false_eq_true, if_false]
    cases ho : (render env.renderEnv url none
        { operationId := some op, events := [] }).outFile with
    | none => exact ⟨_, rfl, rfl, ho⟩
    | some f =>
      rcases hd with hd | hd
      · rw [ho] at hd
        exact Option.noConfusion hd
      · cases hu : env.upload with
        | ok u =>
          exact ⟨_, rfl, rfl, ho⟩
        | error e =>
          rw [hu] at hd
          exact Except.noConfusion hd
  · intro env op url e hs hf hu
    unfold handleRender
    rw [hs]
    simp only [Bool.not_true, Bool.false_eq_true, if_false]
    rcases Option.isSome_iff_exists.mp hf with ⟨f, hof⟩
    rw [hof, hu]

/-- C8 witness: the amended service contract applied to a concrete accepted
request whose upload succeeds. -/
theorem c8_witness :
    ∃ dgs, handleRender ⟨envAllOk, .ok ()⟩ "op" "http://u"
        = ServerResponse.jsonDiag dgs
      ∧ dgs.error = (render envAllOk "http://u" none
          { operationId := some "op", events := [] }).error
      ∧ dgs.outFile = (render envAllOk "http://u" none
          { operationId := some "op", events := [] }).outFile :=
  c8_service_amended.2.1 ⟨envAllOk, .ok ()⟩ "op" "http://u" (by decide)
    (Or.inr rfl)

/-! ## C10: internal render failure stored as a result -/

/-- C10: when the HTTP call returns success and the last non-blank response
line parses, the dispatcher stores the parsed document as the job's render
result (leaving the job's error field untouched) even when that document
itself carries an error description and no output file; and the worker
returns the full diagnostics as a success-status JSON body whenever no
output file was produced — an internal render failure travels inside the
diagnostics. -/
theorem c10_result_not_job_error :
    (∀ (parse : String → Option StoredResult) (body : String) (now : Nat)
        (r : JobRecord) (res : StoredResult),
      (parseAuthoritative body).bind parse = some res →
      res.error.isSome = true → res.outFile = none →
      workJob parse (HttpOutcome.success body) now r
        = { r with renderResult := some res, renderedAt := some now })
    ∧ (∀ (env : ServerEnv) (op url : String),
        startsWithStr url "http" = true →
        (render env.renderEnv url none
          { operationId := some op, events := [] }).outFile = none →
        handleRender env op url
          = ServerResponse.jsonDiag (render env.renderEnv url none
              { operationId := some op, events := [] })) := by
  constructor
  · intro parse body now r res hp _ _
    simp only [workJob]
    rw [hp]
  · intro env op url hurl hout
    unfold handleRender
    rw [hurl]
    simp [hout]

/-- C10 witness: a parsed result with an error and no output file is stored
as the render result of the concrete record `job0`, and the worker's
handler returns the failed diagnostics as a JSON body for a concrete
no-usable-chart environment. -/
theorem c10_witness :
    workJob (fun _ => some resFail) (HttpOutcome.success "\x7b\x7d") 7 job0
      = { job0 with renderResult := some resFail, renderedAt := some 7 }
    ∧ handleRender ⟨envNoChart, .ok ()⟩ "op" "http://u"
      = ServerResponse.jsonDiag (render envNoChart "http://u" none
          { operationId := some "op", events := [] }) :=
  ⟨c10_result_not_job_error.1 (fun _ => some resFail) "\x7b\x7d" 7 job0 resFail
      (by decide) (by decide) rfl,
   c10_result_not_job_error.2 ⟨envNoChart, .ok ()⟩ "op" "http://u"
      (by decide) (by decide)⟩

end Bmsurge
